import Mathlib

/-!
Verification of the crypto-signal-service technical-analysis core.

The JavaScript source is shallowly embedded over exact rationals (`ℚ`).
JS numbers are modelled as `ℚ`; a JS division whose divisor is zero
produces `NaN`/`Infinity`, which is modelled either by `Option` (when a
claim depends on it) or noted at the use site.  The JS `undefined` value
of an absent object field is modelled by `Option` (`none`).
`Math.random()` outputs are modelled by an explicit oracle `rand : ℕ → ℚ`.
`Math.sqrt` is modelled by an explicit function parameter `sqrt : ℚ → ℚ`
(only ever applied at perfect squares in the properties below).
-/

/-- Directional bias of a signal: the three string constants of the source. -/
inductive Bias where
  | BULLISH
  | BEARISH
  | NEUTRAL
deriving DecidableEq, Repr

/-- Result object of `calculateMACD`.  The short-input default literal
`{ macd: 0, signal: 0, bullish: true }` has no `histogram` field, so
`histogram` is an `Option`: `none` models the absent (JS `undefined`) field. -/
structure MACDResult where
  macd : ℚ
  signal : ℚ
  histogram : Option ℚ
  bullish : Bool
deriving DecidableEq, Repr

/-- Embedding of `calculateEMA(data, period)`.  For `data.length < period`
the source returns `data[data.length - 1]`; on an empty list that is JS
`undefined`, modelled here by the junk default `0` (all properties below
restrict to non-empty input in that branch). -/
def calculateEMA (data : List ℚ) (period : ℕ) : ℚ :=
  if data.length < period then data.getLastD 0
  else
    let multiplier : ℚ := 2 / ((period : ℚ) + 1)
    let seed : ℚ := (data.take period).sum / (period : ℚ)
    (data.drop period).foldl (fun ema x => (x - ema) * multiplier + ema) seed

/-- Embedding of `calculateRSI(prices, period = 14)`: consecutive changes,
split into gains and losses, seeded with the simple average of the last
`period` values, then Wilder-smoothed over the changes from index `period` on. -/
def calculateRSI (prices : List ℚ) (period : ℕ) : ℚ :=
  if prices.length < period + 1 then 50
  else
    let changes : List ℚ := (prices.tail.zip prices).map (fun pq => pq.1 - pq.2)
    let gains : List ℚ := changes.map (fun c => if 0 < c then c else 0)
    let losses : List ℚ := changes.map (fun c => if c < 0 then |c| else 0)
    let wilder : ℚ → ℚ → ℚ := fun avg x => (avg * ((period : ℚ) - 1) + x) / (period : ℚ)
    let avgGain := (gains.drop period).foldl wilder
      ((gains.drop (gains.length - period)).sum / (period : ℚ))
    let avgLoss := (losses.drop period).foldl wilder
      ((losses.drop (losses.length - period)).sum / (period : ℚ))
    if avgLoss = 0 then 100
    else 100 - 100 / (1 + avgGain / avgLoss)

/-- Embedding of `calculateMACD(prices)`: neutral-bullish default below 35
points, otherwise `EMA12 - EMA26` with the fixed `0.85` signal-line factor. -/
def calculateMACD (prices : List ℚ) : MACDResult :=
  if prices.length < 35 then ⟨0, 0, none, true⟩
  else
    let ema12 := calculateEMA prices 12
    let ema26 := calculateEMA prices 26
    let macdLine := ema12 - ema26
    let signalLine := macdLine * (85 / 100)
    ⟨macdLine, signalLine, some (macdLine - signalLine), decide (signalLine < macdLine)⟩

/-- Truth value of the JS test `macd.histogram > 0`: an absent (`undefined`)
histogram field compares as false. -/
def macdHistPos (m : MACDResult) : Bool :=
  match m.histogram with
  | some h => decide (0 < h)
  | none => false

/-- Result object of `calculateBollingerBands`.  The `position` field is an
`Option` because the JS expression `(currentPrice - sma) / (stdDev * 2)` is
`NaN` or `±Infinity` (not a number) when `stdDev` is zero; that branch is
modelled as `none`, a finite quotient as `some`. -/
structure BollingerResult where
  upper : ℚ
  middle : ℚ
  lower : ℚ
  position : Option ℚ
deriving DecidableEq, Repr

/-- Exact rational square root on perfect squares (numerator and denominator
both perfect squares); used to instantiate the `sqrt` parameter where only
`sqrt 0 = 0` matters. -/
def ratSqrt (q : ℚ) : ℚ :=
  (Nat.sqrt q.num.toNat : ℚ) / (Nat.sqrt q.den : ℚ)

/-- Embedding of `calculateBollingerBands(prices, period = 20, stdMult = 2)`.
`sqrt` abstracts `Math.sqrt` (instantiate with `ratSqrt`); the trailing
window's SMA and population standard deviation give the bands. -/
def calculateBollingerBands (sqrt : ℚ → ℚ) (prices : List ℚ)
    (period : ℕ) (stdMult : ℚ) : BollingerResult :=
  if prices.length < period then ⟨0, 0, 0, some 0⟩
  else
    let slice := prices.drop (prices.length - period)
    let sma := slice.sum / (period : ℚ)
    let stdDev := sqrt ((slice.map (fun p => (p - sma) ^ 2)).sum / (period : ℚ))
    let currentPrice := prices.getLastD 0
    ⟨sma + stdDev * stdMult, sma, sma - stdDev * stdMult,
      if stdDev * 2 = 0 then none else some ((currentPrice - sma) / (stdDev * 2))⟩

/-- Value of `Math.max(price + drift + noise, price * 0.95)` for one loop
iteration of `generateSimulatedHistory`: `i` indexes the `Math.random()`
oracle `rand`. -/
def priceStep (currentPrice : ℚ) (rand : ℕ → ℚ) (i : ℕ) (price : ℚ) : ℚ :=
  max (price + (currentPrice - price) / 60 + (rand i - 1 / 2) * price * (2 / 100))
    (price * (95 / 100))

/-- Loop body of `generateSimulatedHistory`: each iteration pushes the
current price, advances it by `priceStep`, and pushes the advanced price. -/
def simLoop (currentPrice : ℚ) (rand : ℕ → ℚ) : ℕ → ℕ → ℚ → List ℚ
  | 0, _, _ => []
  | n + 1, i, price =>
    price :: priceStep currentPrice rand i price ::
      simLoop currentPrice rand n (i + 1) (priceStep currentPrice rand i price)

/-- Embedding of `generateSimulatedHistory(currentPrice, change24h)`: the
back-solved start price is driven through 60 iterations of `simLoop`. -/
def generateSimulatedHistory (currentPrice change24h : ℚ) (rand : ℕ → ℚ) : List ℚ :=
  simLoop currentPrice rand 60 0 (currentPrice / (1 + change24h / 100))

/-- Price after `n` iterations starting from rand index `i`: the abstract
trajectory underlying `simLoop`. -/
def priceIter (currentPrice : ℚ) (rand : ℕ → ℚ) : ℕ → ℕ → ℚ → ℚ
  | _, 0, price => price
  | i, n + 1, price => priceIter currentPrice rand (i + 1) n (priceStep currentPrice rand i price)

/-- Loop body of the generator as the specification words it: each iteration
appends the current price twice and only then advances it.  Written for
comparison with `simLoop`, which is the source's actual order. -/
def simLoopSpec (currentPrice : ℚ) (rand : ℕ → ℚ) : ℕ → ℕ → ℚ → List ℚ
  | 0, _, _ => []
  | n + 1, i, price =>
    price :: price ::
      simLoopSpec currentPrice rand n (i + 1) (priceStep currentPrice rand i price)

/-- Generator as the specification words it (append twice, then advance);
compare with `generateSimulatedHistory`. -/
def generateSimulatedHistorySpec (currentPrice change24h : ℚ) (rand : ℕ → ℚ) : List ℚ :=
  simLoopSpec currentPrice rand 60 0 (currentPrice / (1 + change24h / 100))

/-- Score, accumulated label list and bias produced by the scoring block of
`analyzeAsset`. -/
structure ScoreResult where
  score : Int
  signals : List String
  bias : Bias
deriving DecidableEq, Repr

/-- Embedding of the deterministic scoring block of `analyzeAsset` (the v2.0
file's variant: no Bollinger rule, plain funding labels, `+5` RSI default),
as a function of the indicator values and market fields it reads. -/
def analyzeScore (rsi : ℚ) (macd : MACDResult)
    (price ema9 ema21 ema50 change24h funding volume : ℚ) : ScoreResult :=
  let r0 : ScoreResult := ⟨0, [], Bias.NEUTRAL⟩
  let r1 : ScoreResult :=
    if rsi < 30 then ⟨r0.score + 25, r0.signals ++ ["RSI Oversold"], Bias.BULLISH⟩
    else if 70 < rsi then ⟨r0.score - 15, r0.signals ++ ["RSI Overbought"], Bias.BEARISH⟩
    else if 55 < rsi then ⟨r0.score + 15, r0.signals ++ ["RSI Bullish"], Bias.BULLISH⟩
    else if rsi < 45 then ⟨r0.score - 10, r0.signals ++ ["RSI Weak"], Bias.BEARISH⟩
    else ⟨r0.score + 5, r0.signals, r0.bias⟩
  let r2 : ScoreResult :=
    if macd.bullish && macdHistPos macd then
      ⟨r1.score + 20, r1.signals ++ ["MACD Bullish"], r1.bias⟩
    else if macd.bullish then
      ⟨r1.score + 10, r1.signals ++ ["MACD Above Signal"], r1.bias⟩
    else r1
  let aboveEMA : ℕ := (([ema9, ema21, ema50]).filter (fun e => decide (e < price))).length
  let r3 : ScoreResult :=
    if aboveEMA = 3 then ⟨r2.score + 20, r2.signals ++ ["Strong Uptrend"], Bias.BULLISH⟩
    else if aboveEMA = 2 then ⟨r2.score + 10, r2.signals ++ ["Moderate Uptrend"], Bias.BULLISH⟩
    else if aboveEMA = 0 then ⟨r2.score - 20, r2.signals, Bias.BEARISH⟩
    else r2
  let r4 : ScoreResult :=
    if 5 < change24h then ⟨r3.score + 10, r3.signals ++ ["Strong Momentum"], r3.bias⟩
    else if change24h < -5 then ⟨r3.score - 10, r3.signals ++ ["Weak Momentum"], r3.bias⟩
    else r3
  let r5 : ScoreResult :=
    if funding < -(5 / 100) then ⟨r4.score + 10, r4.signals ++ ["Negative Funding"], r4.bias⟩
    else if (5 / 100) < funding then ⟨r4.score - 10, r4.signals ++ ["Positive Funding"], r4.bias⟩
    else r4
  let volumeScore : Int := if 50000000 < volume then 15 else if 20000000 < volume then 10 else 5
  ⟨r5.score + volumeScore, r5.signals, r5.bias⟩

/-- Fields of a scored signal object that the risk sizer and the ranker read. -/
structure Signal where
  asset : String
  score : Int
  bias : Bias
  price : ℚ
  atrPercent : ℚ
deriving DecidableEq, Repr

/-- Risk tolerance profile record (`RISK_PROFILES` entries of the v1.0 file). -/
structure RiskProfile where
  risk : ℚ
  rr_min : ℚ
  rr_target : ℚ
  max_leverage : ℚ
deriving DecidableEq, Repr

/-- One take-profit level: target price and its reward ratio. -/
structure TakeProfit where
  price : ℚ
  rr : ℚ
deriving DecidableEq, Repr

/-- Return object of both `calculatePositionSize` variants. -/
structure RiskPlan where
  positionSize : ℚ
  leverageToUse : ℚ
  stopLossPrice : ℚ
  stopDistance : ℚ
  riskAmount : ℚ
  takeProfit1 : TakeProfit
  takeProfit2 : TakeProfit
  takeProfit3 : TakeProfit
deriving DecidableEq, Repr

/-- Embedding of `calculatePositionSize(signal, accountBalance, riskProfile)`
from the v1.0 file: stop and take-profit signs branch on
`signal.bias === 'BULLISH'`, leverage is capped at the profile's maximum. -/
def calculatePositionSize (signal : Signal) (accountBalance : ℚ)
    (riskProfile : RiskProfile) : RiskPlan :=
  let riskAmount := accountBalance * riskProfile.risk
  let stopDistance := if 0 < signal.atrPercent then signal.atrPercent * (3 / 2) else 5
  let stopLossPrice :=
    if signal.bias = Bias.BULLISH then signal.price * (1 - stopDistance / 100)
    else signal.price * (1 + stopDistance / 100)
  let positionSize := riskAmount / (stopDistance / 100)
  let leverageNeeded := positionSize / accountBalance
  let leverageToUse := min leverageNeeded riskProfile.max_leverage
  let tpPrice : ℚ → ℚ := fun ratio =>
    if signal.bias = Bias.BULLISH then signal.price * (1 + stopDistance / 100 * ratio)
    else signal.price * (1 - stopDistance / 100 * ratio)
  ⟨positionSize, leverageToUse, stopLossPrice, stopDistance, riskAmount,
    ⟨tpPrice riskProfile.rr_target, riskProfile.rr_target⟩,
    ⟨tpPrice (riskProfile.rr_target * 2), riskProfile.rr_target * 2⟩,
    ⟨tpPrice (riskProfile.rr_target * 3), riskProfile.rr_target * 3⟩⟩

/-- Maximum leverage constant of the v2.0 (Telegram) file. -/
def MAX_LEVERAGE : ℚ := 10

/-- Embedding of the v2.0 file's `calculatePositionSize(signal,
accountBalance = 10000, risk = 0.02)`: fixed reward ratios 3/6/9 and
take-profit prices always computed with a `+` sign, whatever the bias. -/
def calculatePositionSizeV2 (signal : Signal) (accountBalance risk : ℚ) : RiskPlan :=
  let riskAmount := accountBalance * risk
  let stopDistance := if 0 < signal.atrPercent then signal.atrPercent * (3 / 2) else 5
  let stopLossPrice :=
    if signal.bias = Bias.BULLISH then signal.price * (1 - stopDistance / 100)
    else signal.price * (1 + stopDistance / 100)
  let positionSize := riskAmount / (stopDistance / 100)
  let leverageNeeded := positionSize / accountBalance
  let leverageToUse := min leverageNeeded MAX_LEVERAGE
  ⟨positionSize, leverageToUse, stopLossPrice, stopDistance, riskAmount,
    ⟨signal.price * (1 + stopDistance / 100 * 3), 3⟩,
    ⟨signal.price * (1 + stopDistance / 100 * 6), 6⟩,
    ⟨signal.price * (1 + stopDistance / 100 * 9), 9⟩⟩

/-- Per-asset market context handed to `analyzeAsset` by the main loop. -/
structure HyperAsset where
  funding : ℚ
  fmScore : ℚ
  markPx : ℚ
  momentum : ℚ
  volume : ℚ
deriving DecidableEq, Repr

/-- Embedding of the analysis loop of `generateSignals`: assets with
`volume < 5000000` are skipped (`continue`) before any analysis; the rest
are analyzed in order.  `analyze` abstracts `analyzeAsset` (whose indicator
values depend on the random history oracle). -/
def processAssets (analyze : HyperAsset → Signal) : List HyperAsset → List Signal
  | [] => []
  | a :: rest =>
    if a.volume < 5000000 then processAssets analyze rest
    else analyze a :: processAssets analyze rest

/-- Embedding of the ranking tail of `generateSignals`: sort the analyses by
descending score (`(a, b) => b.score - a.score`) and keep the first `topN`. -/
def generateSignals (analyze : HyperAsset → Signal) (assets : List HyperAsset)
    (topN : ℕ) : List Signal :=
  ((processAssets analyze assets).mergeSort (fun a b => decide (b.score ≤ a.score))).take topN

/-- Take-profit prices of a plan, for compact statements. -/
def tpPrices (rp : RiskPlan) : List ℚ :=
  [rp.takeProfit1.price, rp.takeProfit2.price, rp.takeProfit3.price]

theorem stopDistance_pos (signal : Signal) (accountBalance : ℚ)
    (riskProfile : RiskProfile) :
    0 < (calculatePositionSize signal accountBalance riskProfile).stopDistance := by
  show 0 < if 0 < signal.atrPercent then signal.atrPercent * (3 / 2) else 5
  split
  · linarith [show (0 : ℚ) < signal.atrPercent from by assumption]
  · norm_num

/-- C3: with RSI 25, a bullish MACD with histogram 0.5, price above all three
EMAs, 24h change 7, funding -0.08 and volume 60,000,000, the scoring block
returns score 100, bias BULLISH and exactly the five claimed labels in order. -/
theorem analyzeScore_full_example :
    analyzeScore 25 ⟨10 / 3, 17 / 6, some (1 / 2), true⟩ 100 90 80 70 7 (-(8 / 100)) 60000000 =
      ⟨100, ["RSI Oversold", "MACD Bullish", "Strong Uptrend", "Strong Momentum",
        "Negative Funding"], Bias.BULLISH⟩ := by
  norm_num [analyzeScore, macdHistPos]

theorem one_sub_mul_lt_self (p x : ℚ) (hp : 0 < p) (hx : 0 < x) : p * (1 - x) < p := by
  nlinarith

theorem lt_one_add_mul_self (p x : ℚ) (hp : 0 < p) (hx : 0 < x) : p < p * (1 + x) := by
  nlinarith

/-- C2: the risk sizer computes `riskAmount = accountBalance * risk`,
`positionSize = riskAmount / (stopDistance/100)`, and
`leverageToUse = min (positionSize/accountBalance) max_leverage`, which in
particular never exceeds the profile's maximum leverage; the cap is a plain
`min`, with no error path. -/
theorem positionSize_leverage_formula (signal : Signal) (accountBalance : ℚ)
    (riskProfile : RiskProfile) (_hb : 0 < accountBalance) :
    (calculatePositionSize signal accountBalance riskProfile).riskAmount =
      accountBalance * riskProfile.risk ∧
    (calculatePositionSize signal accountBalance riskProfile).positionSize =
      (calculatePositionSize signal accountBalance riskProfile).riskAmount /
        ((calculatePositionSize signal accountBalance riskProfile).stopDistance / 100) ∧
    (calculatePositionSize signal accountBalance riskProfile).leverageToUse =
      min ((calculatePositionSize signal accountBalance riskProfile).positionSize /
        accountBalance) riskProfile.max_leverage ∧
    (calculatePositionSize signal accountBalance riskProfile).leverageToUse ≤
      riskProfile.max_leverage :=
  ⟨rfl, rfl, rfl, min_le_right _ _⟩

/-- Witness for `positionSize_leverage_formula` at the specification's worked
example (price 100, atrPercent 2, balance 10000, risk 2%, max leverage 10). -/
theorem positionSize_leverage_formula_witness :
    (0 : ℚ) < 10000 ∧
    (calculatePositionSize ⟨"BTC", 0, Bias.BULLISH, 100, 2⟩ 10000
        ⟨2 / 100, 2, 3, 10⟩).riskAmount = 10000 * (2 / 100 : ℚ) ∧
    (calculatePositionSize ⟨"BTC", 0, Bias.BULLISH, 100, 2⟩ 10000
        ⟨2 / 100, 2, 3, 10⟩).leverageToUse ≤ (10 : ℚ) := by
  refine ⟨by norm_num, ?_, ?_⟩
  · exact (positionSize_leverage_formula ⟨"BTC", 0, Bias.BULLISH, 100, 2⟩ 10000
      ⟨2 / 100, 2, 3, 10⟩ (by norm_num)).1
  · exact (positionSize_leverage_formula ⟨"BTC", 0, Bias.BULLISH, 100, 2⟩ 10000
      ⟨2 / 100, 2, 3, 10⟩ (by norm_num)).2.2.2

/-- C1 (amended): direction consistency of the risk plan.  In the
risk-profile variant a BULLISH signal gets its stop strictly below entry and
all three take-profits strictly above, while a BEARISH or NEUTRAL signal
(NEUTRAL is treated like BEARISH, not BULLISH) gets the inverse.  In the
simplified v2.0 variant the stop obeys the same rule, but all three
take-profit prices are strictly above entry regardless of bias. -/
theorem riskPlan_direction (signal : Signal) (accountBalance risk : ℚ)
    (riskProfile : RiskProfile) (hp : 0 < signal.price) (ht : 0 < riskProfile.rr_target) :
    ((signal.bias = Bias.BULLISH →
        (calculatePositionSize signal accountBalance riskProfile).stopLossPrice < signal.price ∧
        ∀ tp ∈ tpPrices (calculatePositionSize signal accountBalance riskProfile),
          signal.price < tp) ∧
      (signal.bias ≠ Bias.BULLISH →
        signal.price < (calculatePositionSize signal accountBalance riskProfile).stopLossPrice ∧
        ∀ tp ∈ tpPrices (calculatePositionSize signal accountBalance riskProfile),
          tp < signal.price)) ∧
    ((signal.bias = Bias.BULLISH →
        (calculatePositionSizeV2 signal accountBalance risk).stopLossPrice < signal.price) ∧
      (signal.bias ≠ Bias.BULLISH →
        signal.price < (calculatePositionSizeV2 signal accountBalance risk).stopLossPrice) ∧
      ∀ tp ∈ tpPrices (calculatePositionSizeV2 signal accountBalance risk),
        signal.price < tp) := by
  have hdpos : (0 : ℚ) < if 0 < signal.atrPercent then signal.atrPercent * (3 / 2) else 5 := by
    split
    · nlinarith [show (0 : ℚ) < signal.atrPercent from by assumption]
    · norm_num
  set d : ℚ := if 0 < signal.atrPercent then signal.atrPercent * (3 / 2) else 5 with hd
  have h100 : (0 : ℚ) < d / 100 := by positivity
  have htp1 : (0 : ℚ) < d / 100 * riskProfile.rr_target := by positivity
  have htp2 : (0 : ℚ) < d / 100 * (riskProfile.rr_target * 2) := by positivity
  have htp3 : (0 : ℚ) < d / 100 * (riskProfile.rr_target * 3) := by positivity
  simp only [calculatePositionSize, calculatePositionSizeV2, tpPrices, List.mem_cons,
    List.not_mem_nil, or_false, ← hd]
  refine ⟨⟨?_, ?_⟩, ?_, ?_, ?_⟩
  · intro hb
    simp only [hb, if_pos rfl]
    refine ⟨one_sub_mul_lt_self _ _ hp h100, ?_⟩
    rintro tp (rfl | rfl | rfl)
    · exact lt_one_add_mul_self _ _ hp htp1
    · exact lt_one_add_mul_self _ _ hp htp2
    · exact lt_one_add_mul_self _ _ hp htp3
  · intro hb
    simp only [if_neg hb]
    refine ⟨lt_one_add_mul_self _ _ hp h100, ?_⟩
    rintro tp (rfl | rfl | rfl)
    · exact one_sub_mul_lt_self _ _ hp htp1
    · exact one_sub_mul_lt_self _ _ hp htp2
    · exact one_sub_mul_lt_self _ _ hp htp3
  · intro hb
    simp only [hb, if_pos rfl]
    exact one_sub_mul_lt_self _ _ hp h100
  · intro hb
    simp only [if_neg hb]
    exact lt_one_add_mul_self _ _ hp h100
  · have h3 : (0 : ℚ) < d / 100 * 3 := by positivity
    have h6 : (0 : ℚ) < d / 100 * 6 := by positivity
    have h9 : (0 : ℚ) < d / 100 * 9 := by positivity
    rintro tp (rfl | rfl | rfl)
    · exact lt_one_add_mul_self _ _ hp h3
    · exact lt_one_add_mul_self _ _ hp h6
    · exact lt_one_add_mul_self _ _ hp h9

/-- Witness for `riskPlan_direction`: a BULLISH signal at price 100 with
atrPercent 2 (stop distance 3%) gets its stop strictly below 100. -/
theorem riskPlan_direction_witness :
    (0 : ℚ) < 100 ∧ (0 : ℚ) < 3 ∧
    (calculatePositionSize ⟨"W", 0, Bias.BULLISH, 100, 2⟩ 10000
        ⟨2 / 100, 2, 3, 5⟩).stopLossPrice < 100 :=
  ⟨by norm_num, by norm_num,
    ((riskPlan_direction ⟨"W", 0, Bias.BULLISH, 100, 2⟩ 10000 (2 / 100) ⟨2 / 100, 2, 3, 5⟩
      (by norm_num) (by norm_num)).1.1 rfl).1⟩

/-- C1 counterexample: a NEUTRAL signal at price 100 (stop distance 3%) gets
stop 103, not strictly below entry as the claim requires for NEUTRAL; and in
the simplified v2.0 variant a BEARISH signal at price 100 gets take-profit 1
at 109, not strictly below entry as the claim requires for BEARISH. -/
theorem riskPlan_direction_counterexample :
    (calculatePositionSize ⟨"A", 0, Bias.NEUTRAL, 100, 2⟩ 10000
        ⟨2 / 100, 2, 3, 5⟩).stopLossPrice = 103 ∧
    ¬ (calculatePositionSize ⟨"A", 0, Bias.NEUTRAL, 100, 2⟩ 10000
        ⟨2 / 100, 2, 3, 5⟩).stopLossPrice < 100 ∧
    (calculatePositionSizeV2 ⟨"B", 0, Bias.BEARISH, 100, 2⟩ 10000
        (2 / 100)).takeProfit1.price = 109 ∧
    ¬ (calculatePositionSizeV2 ⟨"B", 0, Bias.BEARISH, 100, 2⟩ 10000
        (2 / 100)).takeProfit1.price < 100 := by
  have hne1 : Bias.NEUTRAL ≠ Bias.BULLISH := by decide
  have hne2 : Bias.BEARISH ≠ Bias.BULLISH := by decide
  norm_num [calculatePositionSize, calculatePositionSizeV2, if_neg hne1, if_neg hne2]

theorem simLoop_length (cp : ℚ) (rand : ℕ → ℚ) :
    ∀ (n i : ℕ) (p : ℚ), (simLoop cp rand n i p).length = 2 * n := by
  intro n
  induction n with
  | zero => intro i p; rfl
  | succ k ih =>
    intro i p
    simp only [simLoop, List.length_cons, ih]
    omega

theorem simLoop_get (cp : ℚ) (rand : ℕ → ℚ) :
    ∀ (n j i : ℕ) (p : ℚ), j < n →
      (simLoop cp rand n i p).get? (2 * j) = some (priceIter cp rand i j p) ∧
      (simLoop cp rand n i p).get? (2 * j + 1) = some (priceIter cp rand i (j + 1) p) := by
  intro n
  induction n with
  | zero => intro j i p h; omega
  | succ k ih =>
    intro j i p h
    match j with
    | 0 => exact ⟨rfl, rfl⟩
    | m + 1 =>
      have h2 : 2 * (m + 1) = 2 * m + 1 + 1 := by ring
      have h3 : 2 * (m + 1) + 1 = (2 * m + 1) + 1 + 1 := by ring
      rw [h3, h2]
      simp only [simLoop, List.get?_cons_succ]
      exact ih m (i + 1) (priceStep cp rand i p) (by omega)

/-- C4 (amended): for every currentPrice > 0, change24h > -100 and noise
oracle, the generator returns exactly 120 points from 60 iterations, but each
iteration appends the current price ONCE, then advances it by drift
`(currentPrice - price)/60` plus noise `(rand - 0.5) * price * 0.02`, floored
at 95% of the pre-step price, and appends the ADVANCED price — it does not
append the current price twice before advancing. -/
theorem generateSimulatedHistory_spec (cp ch : ℚ) (rand : ℕ → ℚ)
    (_h1 : 0 < cp) (_h2 : -100 < ch) :
    (generateSimulatedHistory cp ch rand).length = 120 ∧
    (∀ j : ℕ, j < 60 →
      (generateSimulatedHistory cp ch rand).get? (2 * j) =
        some (priceIter cp rand 0 j (cp / (1 + ch / 100))) ∧
      (generateSimulatedHistory cp ch rand).get? (2 * j + 1) =
        some (priceIter cp rand 0 (j + 1) (cp / (1 + ch / 100)))) ∧
    ∀ (i : ℕ) (p : ℚ), priceIter cp rand i 1 p =
      max (p + (cp - p) / 60 + (rand i - 1 / 2) * p * (2 / 100)) (p * (95 / 100)) := by
  refine ⟨simLoop_length cp rand 60 0 _, ?_, fun i p => rfl⟩
  intro j hj
  exact simLoop_get cp rand 60 j 0 _ hj

/-- Witness for `generateSimulatedHistory_spec` at currentPrice 200,
change24h 100 and the constant noise oracle 1/2. -/
theorem generateSimulatedHistory_spec_witness :
    (0 : ℚ) < 200 ∧ (-100 : ℚ) < 100 ∧
    (generateSimulatedHistory 200 100 (fun _ => 1 / 2)).length = 120 :=
  ⟨by norm_num, by norm_num,
    (generateSimulatedHistory_spec 200 100 (fun _ => 1 / 2) (by norm_num) (by norm_num)).1⟩

/-- C4 counterexample: at currentPrice 200, change24h 100 (start price 100)
and zero noise, the code's second output point is the advanced price 305/3,
not a second copy of the current price 100 as the claim's
append-twice-then-advance order would produce. -/
theorem generateSimulatedHistory_counterexample :
    (generateSimulatedHistory 200 100 (fun _ => 1 / 2)).get? 0 = some 100 ∧
    (generateSimulatedHistory 200 100 (fun _ => 1 / 2)).get? 1 = some (305 / 3) ∧
    (generateSimulatedHistorySpec 200 100 (fun _ => 1 / 2)).get? 1 = some 100 ∧
    ((305 : ℚ) / 3) ≠ 100 := by
  refine ⟨?_, ?_, ?_, by norm_num⟩
  · show (simLoop 200 (fun _ => 1 / 2) (59 + 1) 0 (200 / (1 + 100 / 100))).get? 0 = some 100
    simp only [simLoop, List.get?_cons_zero]
    norm_num
  · show (simLoop 200 (fun _ => 1 / 2) (59 + 1) 0 (200 / (1 + 100 / 100))).get? 1 = some (305 / 3)
    simp only [simLoop, List.get?_cons_succ, List.get?_cons_zero]
    have h100 : (200 : ℚ) / (1 + 100 / 100) = 100 := by norm_num
    rw [h100]
    have hmax : priceStep 200 (fun _ => 1 / 2) 0 100 = 305 / 3 := by
      show max ((100 : ℚ) + (200 - 100) / 60 + ((1 : ℚ) / 2 - 1 / 2) * 100 * (2 / 100))
          (100 * (95 / 100)) = 305 / 3
      rw [max_eq_left (by norm_num)]
      norm_num
    rw [hmax]
  · show (simLoopSpec 200 (fun _ => 1 / 2) (59 + 1) 0 (200 / (1 + 100 / 100))).get? 1 = some 100
    simp only [simLoopSpec, List.get?_cons_succ, List.get?_cons_zero]
    norm_num

theorem foldl_wilder_all_zero (p : ℚ) : ∀ l : List ℚ, (∀ x ∈ l, x = 0) →
    l.foldl (fun avg x => (avg * (p - 1) + x) / p) 0 = 0 := by
  intro l
  induction l with
  | nil => intro _; rfl
  | cons a t ih =>
    intro h
    have ha : a = 0 := h a (List.mem_cons_self a t)
    have hstep : ((0 : ℚ) * (p - 1) + a) / p = 0 := by
      rw [ha]
      simp
    simp only [List.foldl_cons, hstep]
    exact ih (fun x hx => h x (List.mem_cons_of_mem a hx))

theorem chain_lt_zip : ∀ l : List ℚ, List.Chain' (· < ·) l →
    ∀ pq ∈ l.tail.zip l, pq.2 < pq.1 := by
  intro l
  induction l with
  | nil => intro _ pq hm; simp at hm
  | cons a rest ih =>
    intro h pq hm
    match rest, hm with
    | b :: t, hm =>
      rw [List.chain'_cons] at h
      simp only [List.tail_cons, List.zip_cons_cons, List.mem_cons] at hm
      rcases hm with rfl | hm
      · exact h.1
      · exact ih h.2 pq hm

/-- C5: RSI returns exactly 50 for every price sequence shorter than
`period + 1` points, whatever its content, and exactly 100 for every strictly
increasing sequence of more than 15 points (the average loss is exactly zero,
taking the absorbing `avgLoss = 0` branch rather than dividing by it). -/
theorem rsi_sentinel_and_rising :
    (∀ (prices : List ℚ) (period : ℕ), prices.length < period + 1 →
      calculateRSI prices period = 50) ∧
    (∀ prices : List ℚ, 15 < prices.length → List.Chain' (· < ·) prices →
      calculateRSI prices 14 = 100) := by
  constructor
  · intro prices period h
    simp [calculateRSI, h]
  · intro prices hlen hchain
    have hnot : ¬ prices.length < 14 + 1 := by omega
    simp only [calculateRSI, if_neg hnot, Nat.cast_ofNat]
    set L : List ℚ := ((prices.tail.zip prices).map (fun pq => pq.1 - pq.2)).map
      (fun c => if c < 0 then |c| else 0) with hLdef
    have hall : ∀ x ∈ L, x = 0 := by
      intro x hx
      rw [hLdef] at hx
      simp only [List.mem_map] at hx
      obtain ⟨c, hc, rfl⟩ := hx
      obtain ⟨pq, hpq, rfl⟩ := hc
      have := chain_lt_zip prices hchain pq hpq
      rw [if_neg (by linarith)]
    have hseed : (L.drop (L.length - 14)).sum / (14 : ℚ) = 0 := by
      rw [List.sum_eq_zero (fun x hx => hall x (List.drop_subset _ _ hx))]
      norm_num
    rw [hseed]
    rw [foldl_wilder_all_zero 14 (L.drop 14) (fun x hx => hall x (List.drop_subset _ _ hx))]
    simp

/-- Witness for `rsi_sentinel_and_rising`: the three-point list `[1, 2, 3]`
(shorter than 15) yields RSI 50, and the strictly increasing sixteen-point
list `[0, …, 15]` yields RSI 100. -/
theorem rsi_sentinel_and_rising_witness :
    ([(1 : ℚ), 2, 3].length < 14 + 1) ∧ calculateRSI [(1 : ℚ), 2, 3] 14 = 50 ∧
    (15 < [(0 : ℚ), 1, 2, 3, 4, 5, 6, 7, 8, 9, 10, 11, 12, 13, 14, 15].length) ∧
    List.Chain' (· < ·) [(0 : ℚ), 1, 2, 3, 4, 5, 6, 7, 8, 9, 10, 11, 12, 13, 14, 15] ∧
    calculateRSI [(0 : ℚ), 1, 2, 3, 4, 5, 6, 7, 8, 9, 10, 11, 12, 13, 14, 15] 14 = 100 :=
  ⟨by decide, rsi_sentinel_and_rising.1 [(1 : ℚ), 2, 3] 14 (by decide), by decide,
    by norm_num [List.chain'_cons],
    rsi_sentinel_and_rising.2 [(0 : ℚ), 1, 2, 3, 4, 5, 6, 7, 8, 9, 10, 11, 12, 13, 14, 15]
      (by decide) (by norm_num [List.chain'_cons])⟩

theorem calculateMACD_long (prices : List ℚ) (h : ¬ prices.length < 35) :
    calculateMACD prices =
      ⟨calculateEMA prices 12 - calculateEMA prices 26,
        (calculateEMA prices 12 - calculateEMA prices 26) * (85 / 100),
        some ((calculateEMA prices 12 - calculateEMA prices 26) -
          (calculateEMA prices 12 - calculateEMA prices 26) * (85 / 100)),
        decide ((calculateEMA prices 12 - calculateEMA prices 26) * (85 / 100) <
          calculateEMA prices 12 - calculateEMA prices 26)⟩ := by
  simp [calculateMACD, h]

/-- C6: below 35 points MACD is exactly the neutral-bullish default (with no
histogram field); otherwise the MACD line is `EMA12 - EMA26`, the signal line
is the fixed `0.85` multiple of the MACD line, the histogram is their
difference, and `bullish` holds exactly when the MACD line exceeds the
signal line. -/
theorem macd_default_and_formula :
    (∀ prices : List ℚ, prices.length < 35 → calculateMACD prices = ⟨0, 0, none, true⟩) ∧
    (∀ prices : List ℚ, 35 ≤ prices.length →
      (calculateMACD prices).macd = calculateEMA prices 12 - calculateEMA prices 26 ∧
      (calculateMACD prices).signal = (85 / 100) * (calculateMACD prices).macd ∧
      (calculateMACD prices).histogram =
        some ((calculateMACD prices).macd - (calculateMACD prices).signal) ∧
      ((calculateMACD prices).bullish = true ↔
        (calculateMACD prices).signal < (calculateMACD prices).macd)) := by
  constructor
  · intro p h
    simp [calculateMACD, h]
  · intro p h
    rw [calculateMACD_long p (by omega)]
    refine ⟨rfl, by ring, rfl, ?_⟩
    simp [decide_eq_true_eq]

/-- Witness for `macd_default_and_formula`: the empty list takes the default
branch and a 35-point constant list takes the formula branch. -/
theorem macd_default_and_formula_witness :
    (([] : List ℚ).length < 35) ∧ calculateMACD ([] : List ℚ) = ⟨0, 0, none, true⟩ ∧
    (35 ≤ (List.replicate 35 (1 : ℚ)).length) ∧
    (calculateMACD (List.replicate 35 (1 : ℚ))).macd =
      calculateEMA (List.replicate 35 (1 : ℚ)) 12 - calculateEMA (List.replicate 35 (1 : ℚ)) 26 :=
  ⟨by decide, macd_default_and_formula.1 [] (by decide), by simp,
    (macd_default_and_formula.2 (List.replicate 35 (1 : ℚ)) (by simp)).1⟩

/-- C10: for 35 or more points, `bullish` holds iff the MACD line is
positive iff the histogram is positive (it equals `0.15 ×` the MACD line), so
the `bullish`-with-nonpositive-histogram branch (+10, "MACD Above Signal")
cannot fire on any full-length generated series (always 120 ≥ 35 points); it
can fire only through the short-series default, whose histogram field is
absent and therefore fails the `> 0` test. -/
theorem macd_bullish_iff_sign :
    (∀ prices : List ℚ, 35 ≤ prices.length →
      (((calculateMACD prices).bullish = true) ↔ 0 < (calculateMACD prices).macd) ∧
      (((calculateMACD prices).bullish = true) ↔ macdHistPos (calculateMACD prices) = true)) ∧
    (∀ prices : List ℚ, prices.length < 35 →
      (calculateMACD prices).bullish = true ∧ (calculateMACD prices).histogram = none ∧
      macdHistPos (calculateMACD prices) = false) ∧
    (∀ (cp ch : ℚ) (rand : ℕ → ℚ),
      ¬ ((calculateMACD (generateSimulatedHistory cp ch rand)).bullish = true ∧
        macdHistPos (calculateMACD (generateSimulatedHistory cp ch rand)) = false)) := by
  have core : ∀ prices : List ℚ, 35 ≤ prices.length →
      (((calculateMACD prices).bullish = true) ↔ 0 < (calculateMACD prices).macd) ∧
      (((calculateMACD prices).bullish = true) ↔ macdHistPos (calculateMACD prices) = true) := by
    intro p h
    rw [calculateMACD_long p (by omega)]
    set m : ℚ := calculateEMA p 12 - calculateEMA p 26 with hm
    constructor
    · simp only [decide_eq_true_eq]
      constructor
      · intro hlt; nlinarith
      · intro hpos; nlinarith
    · simp only [macdHistPos, decide_eq_true_eq]
      constructor
      · intro hlt
        nlinarith
      · intro hpos
        nlinarith
  refine ⟨core, ?_, ?_⟩
  · intro p h
    simp [calculateMACD, h, macdHistPos]
  · intro cp ch rand
    rintro ⟨hb, hh⟩
    have hlen : (generateSimulatedHistory cp ch rand).length = 120 := simLoop_length cp rand 60 0 _
    have h35 : 35 ≤ (generateSimulatedHistory cp ch rand).length := by omega
    have := ((core _ h35).2).mp hb
    rw [this] at hh
    simp at hh

/-- Witness for `macd_bullish_iff_sign` on a 35-point constant list, the
empty list, and a concrete generated series. -/
theorem macd_bullish_iff_sign_witness :
    (((calculateMACD (List.replicate 35 (1 : ℚ))).bullish = true) ↔
      0 < (calculateMACD (List.replicate 35 (1 : ℚ))).macd) ∧
    (calculateMACD ([] : List ℚ)).bullish = true ∧
    ¬ ((calculateMACD (generateSimulatedHistory 1 0 (fun _ => 0))).bullish = true ∧
      macdHistPos (calculateMACD (generateSimulatedHistory 1 0 (fun _ => 0))) = false) :=
  ⟨(macd_bullish_iff_sign.1 (List.replicate 35 1) (by simp)).1,
    (macd_bullish_iff_sign.2.1 [] (by decide)).1,
    macd_bullish_iff_sign.2.2 1 0 (fun _ => 0)⟩

theorem foldl_ema_const (m c : ℚ) : ∀ l : List ℚ, (∀ x ∈ l, x = c) →
    l.foldl (fun ema x => (x - ema) * m + ema) c = c := by
  intro l
  induction l with
  | nil => intro _; rfl
  | cons a t ih =>
    intro h
    have ha : a = c := h a (List.mem_cons_self a t)
    have hstep : (a - c) * m + c = c := by rw [ha]; ring
    simp only [List.foldl_cons, hstep]
    exact ih (fun x hx => h x (List.mem_cons_of_mem a hx))

/-- C8 (amended): for a non-empty sequence shorter than the period, EMA is
the last data point; and for a constant sequence of value `c`, EMA is exactly
`c` for every period with `1 ≤ period ≤ length` (period 0, although allowed
by the claim's wording, divides by zero in the seed and does not return `c`). -/
theorem ema_sentinel_and_constant :
    (∀ (data : List ℚ) (period : ℕ) (h : data ≠ []), data.length < period →
      calculateEMA data period = data.getLast h) ∧
    (∀ (data : List ℚ) (c : ℚ) (period : ℕ), (∀ x ∈ data, x = c) →
      1 ≤ period → period ≤ data.length → calculateEMA data period = c) := by
  constructor
  · intro data period h hlen
    rw [calculateEMA, if_pos hlen, List.getLastD_eq_getLast?, List.getLast?_eq_getLast data h]
    rfl
  · intro data c period hc h1 h2
    have hnot : ¬ data.length < period := by omega
    simp only [calculateEMA, if_neg hnot]
    have htake : data.take period = List.replicate period c := by
      rw [List.eq_replicate_iff]
      refine ⟨?_, fun b hb => hc b (List.take_subset _ _ hb)⟩
      rw [List.length_take]
      omega
    have hseed : (data.take period).sum / (period : ℚ) = c := by
      rw [htake, List.sum_replicate, nsmul_eq_mul]
      have : ((period : ℚ)) ≠ 0 := by
        simp only [ne_eq, Nat.cast_eq_zero]
        omega
      field_simp
    rw [hseed]
    exact foldl_ema_const _ c _ (fun x hx => hc x (List.drop_subset _ _ hx))

/-- Witness for `ema_sentinel_and_constant`: `[3, 4]` with period 5 returns
the last point 4, and seven constant 2s with period 3 return 2. -/
theorem ema_sentinel_and_constant_witness :
    (([(3 : ℚ), 4] : List ℚ) ≠ []) ∧ ([(3 : ℚ), 4].length < 5) ∧
    calculateEMA [(3 : ℚ), 4] 5 = [(3 : ℚ), 4].getLast (by decide) ∧
    (∀ x ∈ List.replicate 7 (2 : ℚ), x = 2) ∧
    calculateEMA (List.replicate 7 (2 : ℚ)) 3 = 2 :=
  ⟨by decide, by decide, ema_sentinel_and_constant.1 [(3 : ℚ), 4] 5 (by decide) (by decide),
    by simp, ema_sentinel_and_constant.2 (List.replicate 7 (2 : ℚ)) 2 3 (by simp)
      (by decide) (by simp)⟩

/-- C8 counterexample: period 0 satisfies "period ≤ sequence length" for the
constant one-point sequence `[1]`, yet EMA does not return the constant 1.
The source seeds with `sum of zero points / 0` (JS `NaN`, here the total
division's 0) and then steps with multiplier `2/(0+1) = 2`, giving 2 — in JS
the result is `NaN`; either way it is not the constant. -/
theorem ema_period_zero_counterexample :
    calculateEMA [1] 0 = 2 ∧ (2 : ℚ) ≠ 1 := by
  constructor
  · norm_num [calculateEMA]
  · norm_num

theorem ratSqrt_zero : ratSqrt 0 = 0 := by
  norm_num [ratSqrt]

theorem bollinger_constant_core (sqrt : ℚ → ℚ) (hs : sqrt 0 = 0) (prices : List ℚ) (c : ℚ)
    (hc : ∀ x ∈ prices, x = c) (hlen : 20 ≤ prices.length) :
    calculateBollingerBands sqrt prices 20 2 = ⟨c, c, c, none⟩ := by
  have hnot : ¬ prices.length < 20 := by omega
  simp only [calculateBollingerBands, if_neg hnot, Nat.cast_ofNat]
  set S : List ℚ := prices.drop (prices.length - 20) with hS
  have hSc : ∀ x ∈ S, x = c := fun x hx => hc x (List.drop_subset _ _ hx)
  have hSlen : S.length = 20 := by
    rw [hS, List.length_drop]
    omega
  have hrep : S = List.replicate 20 c := by
    rw [List.eq_replicate_iff]
    exact ⟨hSlen, hSc⟩
  have hsma : S.sum / (20 : ℚ) = c := by
    rw [hrep, List.sum_replicate, nsmul_eq_mul]
    norm_num
  rw [hsma]
  have hvar : (S.map (fun p => (p - c) ^ 2)).sum / (20 : ℚ) = 0 := by
    rw [List.sum_eq_zero]
    · norm_num
    · intro x hx
      simp only [List.mem_map] at hx
      obtain ⟨p, hp, rfl⟩ := hx
      rw [hSc p hp]
      ring
  rw [hvar, hs]
  norm_num

/-- C7 (amended): below the period the function returns the all-zero struct
(its `position` field is the literal 0); for a constant sequence of 20 or
more points, upper, middle and lower all equal the constant, but `position`
is the undefined `0/0` (JS `NaN`, modelled `none`), not a defined fallback 0 —
the source has no `stdDev = 0` guard. -/
theorem bollinger_zero_and_constant (sqrt : ℚ → ℚ) (hs : sqrt 0 = 0) :
    (∀ (prices : List ℚ) (period : ℕ) (stdMult : ℚ), prices.length < period →
      calculateBollingerBands sqrt prices period stdMult = ⟨0, 0, 0, some 0⟩) ∧
    (∀ (prices : List ℚ) (c : ℚ), (∀ x ∈ prices, x = c) → 20 ≤ prices.length →
      (calculateBollingerBands sqrt prices 20 2).upper = c ∧
      (calculateBollingerBands sqrt prices 20 2).middle = c ∧
      (calculateBollingerBands sqrt prices 20 2).lower = c ∧
      (calculateBollingerBands sqrt prices 20 2).position = none) := by
  constructor
  · intro prices period stdMult h
    simp [calculateBollingerBands, h]
  · intro prices c hc hlen
    rw [bollinger_constant_core sqrt hs prices c hc hlen]
    exact ⟨rfl, rfl, rfl, rfl⟩

/-- Witness for `bollinger_zero_and_constant` at the empty list and twenty
constant 5s, with `ratSqrt` for `Math.sqrt`. -/
theorem bollinger_zero_and_constant_witness :
    ratSqrt 0 = 0 ∧
    calculateBollingerBands ratSqrt ([] : List ℚ) 20 2 = ⟨0, 0, 0, some 0⟩ ∧
    (calculateBollingerBands ratSqrt (List.replicate 20 (5 : ℚ)) 20 2).middle = 5 :=
  ⟨ratSqrt_zero,
    (bollinger_zero_and_constant ratSqrt ratSqrt_zero).1 [] 20 2 (by decide),
    ((bollinger_zero_and_constant ratSqrt ratSqrt_zero).2 (List.replicate 20 (5 : ℚ)) 5
      (by simp) (by simp)).2.1⟩

/-- C7 counterexample: for twenty constant 5s the `position` field is the
undefined quotient (`none`, JS `NaN`), not the claimed defined fallback
`some 0`. -/
theorem bollinger_position_counterexample :
    (calculateBollingerBands ratSqrt (List.replicate 20 (5 : ℚ)) 20 2).position = none ∧
    (calculateBollingerBands ratSqrt (List.replicate 20 (5 : ℚ)) 20 2).position ≠ some 0 := by
  have h := bollinger_constant_core ratSqrt ratSqrt_zero (List.replicate 20 (5 : ℚ)) 5
    (by simp) (by simp)
  rw [h]
  simp

theorem processAssets_eq_filter_map (analyze : HyperAsset → Signal) :
    ∀ assets : List HyperAsset,
      processAssets analyze assets =
        (assets.filter (fun a => decide (5000000 ≤ a.volume))).map analyze := by
  intro assets
  induction assets with
  | nil => rfl
  | cons a rest ih =>
    simp only [processAssets, List.filter_cons]
    by_cases h : a.volume < 5000000
    · rw [if_pos h]
      have hd : decide (5000000 ≤ a.volume) = false := by
        simp [not_le.mpr h]
      rw [hd]
      simpa using ih
    · rw [if_neg h]
      have hd : decide (5000000 ≤ a.volume) = true := by
        simp [not_lt.mp h]
      rw [hd]
      simp [ih]

/-- C9: exactly the assets with volume ≥ 5,000,000 are analyzed (the rest are
skipped before scoring); every emitted signal comes from such an asset; the
output is sorted by descending score; and its length is `topN` capped by the
number of analyzed assets. -/
theorem generateSignals_spec (analyze : HyperAsset → Signal) (assets : List HyperAsset)
    (topN : ℕ) :
    processAssets analyze assets =
      (assets.filter (fun a => decide (5000000 ≤ a.volume))).map analyze ∧
    (∀ s ∈ generateSignals analyze assets topN,
      ∃ a ∈ assets, ¬ a.volume < 5000000 ∧ s = analyze a) ∧
    List.Pairwise (fun x y : Signal => y.score ≤ x.score) (generateSignals analyze assets topN) ∧
    (generateSignals analyze assets topN).length =
      min topN (processAssets analyze assets).length := by
  refine ⟨processAssets_eq_filter_map analyze assets, ?_, ?_, ?_⟩
  · intro s hs
    have hs1 : s ∈ (processAssets analyze assets).mergeSort
        (fun a b => decide (b.score ≤ a.score)) := List.take_subset _ _ hs
    have hs2 : s ∈ processAssets analyze assets :=
      (List.mergeSort_perm (processAssets analyze assets) _).mem_iff.mp hs1
    rw [processAssets_eq_filter_map analyze assets] at hs2
    obtain ⟨a, ha, rfl⟩ := List.mem_map.mp hs2
    obtain ⟨ha1, ha2⟩ := List.mem_filter.mp ha
    exact ⟨a, ha1, not_lt.mpr (by simpa using ha2), rfl⟩
  · have htrans : ∀ a b c : Signal, (fun a b : Signal => decide (b.score ≤ a.score)) a b = true →
        (fun a b : Signal => decide (b.score ≤ a.score)) b c = true →
        (fun a b : Signal => decide (b.score ≤ a.score)) a c = true := by
      intro a b c hab hbc
      simp only [decide_eq_true_eq] at *
      exact le_trans hbc hab
    have htotal : ∀ a b : Signal, ((fun a b : Signal => decide (b.score ≤ a.score)) a b ||
        (fun a b : Signal => decide (b.score ≤ a.score)) b a) = true := by
      intro a b
      simpa using le_total b.score a.score
    have hsorted := @List.sorted_mergeSort Signal (fun a b => decide (b.score ≤ a.score))
      htrans htotal (processAssets analyze assets)
    have hsorted2 : List.Pairwise (fun x y : Signal => y.score ≤ x.score)
        ((processAssets analyze assets).mergeSort (fun a b => decide (b.score ≤ a.score))) :=
      hsorted.imp (fun h => by simpa using h)
    exact hsorted2.sublist (List.take_sublist _ _)
  · rw [generateSignals, List.length_take, List.length_mergeSort]

/-- Witness for `generateSignals_spec`: one asset with volume 6,000,000
passes the filter and its signal is the single output of `generateSignals`. -/
theorem generateSignals_spec_witness :
    (⟨"W", 1, Bias.NEUTRAL, 1, 1⟩ : Signal) ∈
      generateSignals (fun _ => ⟨"W", 1, Bias.NEUTRAL, 1, 1⟩)
        [(⟨0, 0, 1, 0, 6000000⟩ : HyperAsset)] 1 ∧
    (∃ a ∈ [(⟨0, 0, 1, 0, 6000000⟩ : HyperAsset)], ¬ a.volume < 5000000 ∧
      (⟨"W", 1, Bias.NEUTRAL, 1, 1⟩ : Signal) =
        (fun _ : HyperAsset => (⟨"W", 1, Bias.NEUTRAL, 1, 1⟩ : Signal)) a) ∧
    (generateSignals (fun _ => ⟨"W", 1, Bias.NEUTRAL, 1, 1⟩)
        [(⟨0, 0, 1, 0, 6000000⟩ : HyperAsset)] 1).length =
      min 1 (processAssets (fun _ => ⟨"W", 1, Bias.NEUTRAL, 1, 1⟩)
        [(⟨0, 0, 1, 0, 6000000⟩ : HyperAsset)]).length := by
  have hproc : processAssets (fun _ => (⟨"W", 1, Bias.NEUTRAL, 1, 1⟩ : Signal))
      [(⟨0, 0, 1, 0, 6000000⟩ : HyperAsset)] = [⟨"W", 1, Bias.NEUTRAL, 1, 1⟩] := by
    norm_num [processAssets]
  have hmem : (⟨"W", 1, Bias.NEUTRAL, 1, 1⟩ : Signal) ∈
      generateSignals (fun _ => ⟨"W", 1, Bias.NEUTRAL, 1, 1⟩)
        [(⟨0, 0, 1, 0, 6000000⟩ : HyperAsset)] 1 := by
    rw [generateSignals, hproc]
    have hsing : ([(⟨"W", 1, Bias.NEUTRAL, 1, 1⟩ : Signal)]).mergeSort
        (fun a b => decide (b.score ≤ a.score)) = [⟨"W", 1, Bias.NEUTRAL, 1, 1⟩] :=
      List.perm_singleton.mp (List.mergeSort_perm _ _)
    rw [hsing]
    decide
  refine ⟨hmem, ?_, ?_⟩
  · exact (generateSignals_spec (fun _ => ⟨"W", 1, Bias.NEUTRAL, 1, 1⟩)
      [(⟨0, 0, 1, 0, 6000000⟩ : HyperAsset)] 1).2.1 _ hmem
  · exact (generateSignals_spec (fun _ => ⟨"W", 1, Bias.NEUTRAL, 1, 1⟩)
      [(⟨0, 0, 1, 0, 6000000⟩ : HyperAsset)] 1).2.2.2
